import Mathlib

/-!
Verification of the 2048 board state machine and move-search engine
(`src/2048/twenty_forty_eight.py`).

The grid is a row-major `List Nat` of length `size * size` (0 = empty cell).
Randomness (`random.choice`, `random.random`) is modelled by explicit
oracles: a stream `Rng` of `(pick, isFour)` values consumed by tile spawns
(`pick` selects uniformly among the empty cells via `pick % count`, and
`isFour = true` models the probability-0.1 event `random.random() >= 0.9`
that spawns a 4), and a choice function `List Dir → Dir` standing for
`random.choice` over direction lists.
-/

set_option autoImplicit false

namespace TwentyFortyEight

/-- The four move directions, keyed `w`/`a`/`s`/`d` as in the source. -/
inductive Dir where
  | w
  | a
  | s
  | d
deriving DecidableEq, Repr

instance : Fintype Dir :=
  ⟨⟨[Dir.w, Dir.a, Dir.s, Dir.d], by decide⟩, fun x => by cases x <;> decide⟩

/-! ## Traversal tables (`MoveDirection._initialize_directions`) -/

/-- Up: `list(range(total_cells))`. -/
def up_order (size : Nat) : List Nat := List.range (size * size)

/-- Down: `list(range(total_cells - 1, -1, -1))`. -/
def down_order (size : Nat) : List Nat := (List.range (size * size)).reverse

/-- Left: for `i in range(size)`, extend by `range(i, total_cells, size)`. -/
def left_order (size : Nat) : List Nat :=
  ((List.range size).map (fun i => List.range' i size size)).flatten

/-- Right: for `i in range(size - 1, -1, -1)`, extend by `range(i, total_cells, size)`. -/
def right_order (size : Nat) : List Nat :=
  ((List.range size).reverse.map (fun i => List.range' i size size)).flatten

/-- The traversal order attached to each direction key. -/
def direction_order (size : Nat) : Dir → List Nat
  | Dir.w => up_order size
  | Dir.a => left_order size
  | Dir.s => down_order size
  | Dir.d => right_order size

/-! ## Move engine (`GameLogic._process_move`) -/

/-- The sequence of order positions visited by the backward scan
`next_i = i - size; while next_i >= 0: ...; next_i -= size`.
The fuel argument (`i` at the top call) bounds the number of
subtractions, each of which lowers the position by `size ≥ 1`. -/
def back_positions_aux (size : Nat) : Nat → Nat → List Nat
  | _, 0 => []
  | i, fuel + 1 =>
    if 0 < size ∧ size ≤ i then (i - size) :: back_positions_aux size (i - size) fuel
    else []

/-- All order positions `i - size, i - 2*size, ...` down to (and including) 0 territory,
exactly the values taken by `next_i` in the inner `while` loop. -/
def back_positions (size i : Nat) : List Nat := back_positions_aux size i i

/-- The inner `while next_i >= 0` loop of `_process_move` for one tile:
walk backward through the traversal order, sliding over empties,
merging once on an equal tile, stopping on a different tile.
Returns the updated grid and the score gained (0 unless a merge happened). -/
def slide_tile (order : List Nat) : List Nat → List Nat → Nat → List Nat × Nat
  | [], b, _ => (b, 0)
  | look :: rest, b, pos =>
    let next_pos := order.getD look 0
    if b.getD next_pos 0 = 0 then
      slide_tile order rest ((b.set next_pos (b.getD pos 0)).set pos 0) next_pos
    else if b.getD pos 0 = b.getD next_pos 0 then
      ((b.set next_pos (2 * b.getD next_pos 0)).set pos 0, 2 * b.getD next_pos 0)
    else
      (b, 0)

/-- One iteration of the outer `for i in range(total_cells)` loop of `_process_move`:
skip empty cells, otherwise run the backward scan for the tile at order position `i`. -/
def move_step (size : Nat) (order : List Nat) (st : List Nat × Nat) (i : Nat) :
    List Nat × Nat :=
  let pos := order.getD i 0
  if st.1.getD pos 0 = 0 then st
  else
    let r := slide_tile order (back_positions size i) st.1 pos
    (r.1, st.2 + r.2)

/-- `GameLogic._process_move`: slide/merge the whole grid along `order`,
returning the new grid and the score delta (no random spawn happens here). -/
def process_move (size : Nat) (order : List Nat) (b : List Nat) : List Nat × Nat :=
  (List.range (size * size)).foldl (move_step size order) (b, 0)

/-! ## Board operations (`GameBoard`) -/

/-- Random-source stream for tile spawns: each entry is
(`random.choice` pick value, `random.random() >= 0.9` flag). -/
abbrev Rng := List (Nat × Bool)

/-- `[i for i in range(total_cells) if board[i] == 0]`. -/
def empty_indices (b : List Nat) : List Nat :=
  (List.range b.length).filter (fun i => b.getD i 0 = 0)

/-- `GameBoard._add_random_tile`: pick a uniformly random empty cell and set it
to 2 (probability 0.9) or 4 (probability 0.1); return false on a full grid.
Returns (success, new grid, remaining random stream). -/
def add_random_tile (b : List Nat) (rng : Rng) : Bool × List Nat × Rng :=
  let empty := empty_indices b
  if empty.isEmpty then (false, b, rng)
  else
    let c := rng.headD (0, false)
    let position := empty.getD (c.1 % empty.length) 0
    (true, b.set position (if c.2 then 4 else 2), rng.tail)

/-- `GameBoard.is_game_over`: no empty cell and no equal right/bottom neighbor. -/
def is_game_over (size : Nat) (b : List Nat) : Bool :=
  if b.contains 0 then false
  else
    (List.range (size * size)).all fun i =>
      !(decide (i % size < size - 1) && decide (b.getD (i + 1) 0 = b.getD i 0)) &&
      !(decide (i / size < size - 1) && decide (b.getD (i + size) 0 = b.getD i 0))

/-- `GameBoard.get_max_value`: `max(board)` (0 for an empty list). -/
def get_max_value (b : List Nat) : Nat := b.foldr max 0

/-- `GameBoard.get_empty_cell_count`: `board.count(0)`. -/
def get_empty_cell_count (b : List Nat) : Nat := b.count 0

/-- `GameBoard._initialize_board`: fresh all-zero grid plus two random tiles. -/
def init_board (size : Nat) (rng : Rng) : List Nat × Rng :=
  let r1 := add_random_tile (List.replicate (size * size) 0) rng
  let r2 := add_random_tile r1.2.1 r1.2.2
  (r2.2.1, r2.2.2)

/-! ## `GameLogic.make_move` -/

/-- `GameLogic.make_move`: run `_process_move`, compare with the pre-move grid,
and spawn a random tile iff the grid changed.
Returns (score gained, move made, new grid, remaining random stream). -/
def make_move (size : Nat) (b : List Nat) (dir : Dir) (rng : Rng) :
    Nat × Bool × List Nat × Rng :=
  let r := process_move size (direction_order size dir) b
  if r.1 = b then (r.2, false, r.1, rng)
  else
    let sp := add_random_tile r.1 rng
    (r.2, true, sp.2.1, sp.2.2)

/-! ## Heuristic evaluator (`AIPlayer._evaluate_position`) -/

/-- `AIPlayer._calculate_bottom_right_bias`:
`Σ_i ((i % size + i // size) ** 3) * board[i]`. -/
def bottom_right_bias (size : Nat) (b : List Nat) : Nat :=
  ((List.range (size * size)).map (fun i => (i % size + i / size) ^ 3 * b.getD i 0)).sum

/-- `AIPlayer._calculate_variety_score`: over the distinct values of the grid
(dict built in first-occurrence order), add `(max_value // value) * count`
for each nonzero value. -/
def variety_score (b : List Nat) (max_value : Nat) : Nat :=
  (b.dedup.map (fun v => if v ≠ 0 then max_value / v * b.count v else 0)).sum

/-- `AIPlayer._evaluate_position`: `-1 * score ** 4` on a terminal board, else the
weighted sum of the empty-cell, positional-bias, score and variety terms. -/
def evaluate_position (size : Nat) (b : List Nat) (score : Nat) : Int :=
  if is_game_over size b then (-1) * (score : Int) ^ 4
  else
    let empty_cells := get_empty_cell_count b
    let max_value := get_max_value b
    ((empty_cells * empty_cells * max_value * 1024
      + bottom_right_bias size b * 4
      + max_value * score
      + variety_score b max_value : Nat) : Int)

/-! ## Move search (`AIPlayer._get_best_move`, `AIPlayer.get_move`) -/

/-- `heuristic_value > best_score`, with `none` playing the role of the initial
`float negative infinity`. -/
def is_better (v : Int) : Option Int → Bool
  | none => true
  | some c => decide (c < v)

/-- One iteration of the direction loop in `_get_best_move`: simulate the move on a
copy of the board (spawn included), skip it if the grid did not change, otherwise
evaluate the resulting position and keep the strictly best direction seen. -/
def best_step (size : Nat) (score : Nat) (b : List Nat)
    (st : Dir × Option Int × Rng) (dir : Dir) : Dir × Option Int × Rng :=
  let r := make_move size b dir st.2.2
  if r.2.1 then
    let v := evaluate_position size r.2.2.1 (score + r.1)
    if is_better v st.2.1 then (dir, some v, r.2.2.2) else (st.1, st.2.1, r.2.2.2)
  else
    (st.1, st.2.1, st.2.2)

/-- `AIPlayer._get_best_move`: fold the direction loop over `['w','a','s','d']`
starting from `best_move = 'w'`, `best_score = -inf`. -/
def get_best_move (size : Nat) (b : List Nat) (score : Nat) (rng : Rng) :
    Dir × Option Int × Rng :=
  [Dir.w, Dir.a, Dir.s, Dir.d].foldl (best_step size score b) (Dir.w, none, rng)

/-- `AIPlayer.get_move`: random fallbacks once the stuck counter passes 15 (all four
directions) or 5 (`w` excluded), otherwise the best move from `_get_best_move`
(whose computation is total, so the `except` fallback is never taken). -/
def ai_get_move (size : Nat) (b : List Nat) (score stuck : Nat)
    (choose : List Dir → Dir) (rng : Rng) : Dir :=
  if stuck > 15 then choose [Dir.w, Dir.a, Dir.s, Dir.d]
  else if stuck > 5 then choose [Dir.a, Dir.s, Dir.d]
  else (get_best_move size b score rng).1

/-! ## History (`GameHistory`) -/

/-- A stored history entry: a grid snapshot (stored by value, modelling the
`board.copy()` clone the source makes) paired with the score. Entries are kept
oldest first, newest last, matching list `append`/`pop` in the source. -/
abbrev HistEntry := List Nat × Nat

/-- `GameHistory.add_state`: append a `(clone of grid, score)` entry unless the grid
equals the most recently stored grid; then evict the oldest entry if the stored
count exceeds `max_history + 1`. -/
def add_state (max_history : Nat) (hist : List HistEntry) (b : List Nat) (score : Nat) :
    List HistEntry :=
  if hist.isEmpty ∨ (hist.getLast?.map Prod.fst ≠ some b) then
    let h := hist ++ [(b, score)]
    if h.length > max_history + 1 then h.tail else h
  else hist

/-- `GameHistory.can_undo`: more than one stored entry. -/
def can_undo (hist : List HistEntry) : Bool := hist.length > 1

/-- `GameHistory.undo`: `none` (the `ValueError`) when `can_undo` fails, leaving the
history untouched; otherwise discard the newest entry, then pop and return the next
newest together with the remaining history. -/
def undo (hist : List HistEntry) : Option (HistEntry × List HistEntry) :=
  if can_undo hist then
    let h := hist.dropLast
    h.getLast?.map (fun e => (e, h.dropLast))
  else none

/-! ## Session (`Game2048`) -/

/-- `GameState`: the game-state enum. -/
inductive GameSt where
  | start_screen
  | playing
  | game_over
deriving DecidableEq, Repr

/-- The session state owned by `Game2048` (rendering and file persistence are
external collaborators and carry no game state beyond `best`). `is_human` models
which player object `current_player` refers to. -/
structure Session where
  board : List Nat
  score : Nat
  best : Nat
  hist : List HistEntry
  state : GameSt
  is_human : Bool
  stuck : Nat
deriving DecidableEq, Repr

/-- `Game2048.start_game`: reset score, reinitialize the board with two random
tiles, reset the history seeded with the initial state, reset the AI stuck
counter, enter the `PLAYING` state. -/
def start_game (size max_history : Nat) (is_human : Bool) (best : Nat) (rng : Rng) :
    Session × Rng :=
  let r := init_board size rng
  ({ board := r.1
     score := 0
     best := best
     hist := add_state max_history [] r.1 0
     state := GameSt.playing
     is_human := is_human
     stuck := 0 }, r.2)

/-- `Game2048.make_move`: refuse outside `PLAYING`; push the current state onto the
history, run the move, then on success add the gained score, reset the AI stuck
counter, update the best score and check for game over; on failure bump the AI
stuck counter. Returns (`move_made`, new session, remaining random stream). -/
def session_make_move (size max_history : Nat) (s : Session) (dir : Dir) (rng : Rng) :
    Bool × Session × Rng :=
  if s.state ≠ GameSt.playing then (false, s, rng)
  else
    let hist1 := add_state max_history s.hist s.board s.score
    let r := make_move size s.board dir rng
    if r.2.1 then
      let score1 := s.score + r.1
      let best1 := if score1 > s.best then score1 else s.best
      let state1 := if is_game_over size r.2.2.1 then GameSt.game_over else GameSt.playing
      (true,
       { s with
         board := r.2.2.1
         score := score1
         best := best1
         hist := hist1
         state := state1
         stuck := if s.is_human then s.stuck else 0 }, r.2.2.2)
    else
      (false,
       { s with
         hist := hist1
         stuck := if s.is_human then s.stuck else s.stuck + 1 }, rng)

/-- `Game2048.undo_move`: `False` when `can_undo` fails or the game is not in the
`PLAYING` state; otherwise restore the grid and score popped from the history.
The `ValueError` branch of `GameHistory.undo` is caught and surfaced as `False`. -/
def undo_move (s : Session) : Bool × Session :=
  if ¬ can_undo s.hist ∨ s.state ≠ GameSt.playing then (false, s)
  else
    match undo s.hist with
    | some (e, h) => (true, { s with board := e.1, score := e.2, hist := h })
    | none => (false, s)

/-! ## `Game2048.get_ai_move` and Python name resolution

`Game2048.get_ai_move` begins with
`if self.player_type != PlayerType.COMPUTER or self.state != GameState.PLAYING:`.
Python resolves the attribute `self.player_type` and the global name `PlayerType`
at run time, so the method is modelled down to that name resolution: an attribute
read succeeds only if some method of `Game2048` ever assigns the attribute, and a
global read succeeds only if the module defines the name. -/

/-- Every attribute name assigned on `self` anywhere in `Game2048`
(`__init__`, `_initialize_pygame`, `_initialize_fonts`, `start_game`,
`make_move`, `undo_move`, `clear_best_score`). -/
def game2048_attributes : List String :=
  ["config", "colors", "board", "move_direction", "game_logic", "history",
   "human_player", "ai_player", "state", "current_player", "score", "best_score",
   "screen", "fonts"]

/-- Every name defined at module level in `twenty_forty_eight.py`
(imports, classes and the entry point). -/
def module_globals : List String :=
  ["random", "pygame", "os", "copy", "GameState", "GameConfig", "Colors",
   "GameBoard", "MoveDirection", "GameLogic", "Player", "HumanPlayer", "AIPlayer",
   "GameHistory", "Game2048", "main"]

/-- Python attribute lookup on a `Game2048` instance: `AttributeError` unless the
attribute is one the class ever assigns. -/
def read_attribute (n : String) : Except String Unit :=
  if n ∈ game2048_attributes then Except.ok ()
  else Except.error ("AttributeError: " ++ n)

/-- Python global-name lookup in the module: `NameError` unless the module
defines the name. -/
def read_global (n : String) : Except String Unit :=
  if n ∈ module_globals then Except.ok ()
  else Except.error ("NameError: " ++ n)

/-- `Game2048.get_ai_move`, modelled through the names its body reads in evaluation
order (`self.player_type`, `PlayerType`, `self.stuck_counter`, `self.ai`); were all
of those resolvable the method would go on to return a direction, modelled by the
final `Except.ok`. -/
def get_ai_move : Except String Dir := do
  let _ ← read_attribute "player_type"
  let _ ← read_global "PlayerType"
  let _ ← read_attribute "state"
  let _ ← read_attribute "stuck_counter"
  let _ ← read_attribute "ai"
  Except.ok Dir.w

/-! ## Helper lemmas -/

/-- A direction whose slide/merge step does not change the grid is skipped by the
direction loop of `_get_best_move`: the loop state is left untouched. -/
theorem best_step_skip (size score : Nat) (b : List Nat) (st : Dir × Option Int × Rng)
    (dir : Dir) (h : (process_move size (direction_order size dir) b).1 = b) :
    best_step size score b st dir = st := by
  simp [best_step, make_move, h]

/-- A direction whose slide/merge step changes the grid, met while `best_score` is
still `-inf`, is always adopted as the current best move. -/
theorem best_step_adopt (size score : Nat) (b : List Nat) (x : Dir) (rng : Rng)
    (dir : Dir) (h : (process_move size (direction_order size dir) b).1 ≠ b) :
    ∃ v rng2, best_step size score b (x, none, rng) dir = (dir, some v, rng2) := by
  simp [best_step, make_move, if_neg h, is_better]

/-! ## Claims -/

/-- C1: on the size-2 grid `[2,2,0,0]`, the slide/merge step for Left yields
`([4,0,0,0], 4)` as claimed, but for Right it yields `([0,4,0,0], 4)` — the merged
tile lands at row 0, column 1, not at index 3 as the claim states. -/
theorem c1_counterexample :
    process_move 2 (direction_order 2 Dir.a) [2, 2, 0, 0] = ([4, 0, 0, 0], 4)
    ∧ process_move 2 (direction_order 2 Dir.d) [2, 2, 0, 0] = ([0, 4, 0, 0], 4)
    ∧ ([0, 4, 0, 0] : List Nat) ≠ [0, 0, 0, 4] := by
  decide

/-- C1 (amended): Left on `[2,2,0,0]` gives grid `[4,0,0,0]` with score delta 4, and
Right on the same grid gives grid `[0,4,0,0]` with score delta 4. -/
theorem c1_theorem :
    process_move 2 (direction_order 2 Dir.a) [2, 2, 0, 0] = ([4, 0, 0, 0], 4)
    ∧ process_move 2 (direction_order 2 Dir.d) [2, 2, 0, 0] = ([0, 4, 0, 0], 4) := by
  decide

/-- C2: on the size-2 grid `[2,0,2,4]` the slide/merge step for Up yields
`([4,4,0,0], 4)`: column 0 merges to 4 and the 4 at row 1, column 1 slides up into
the empty cell above it, contradicting the claimed result `[4,0,0,4]`. -/
theorem c2_counterexample :
    process_move 2 (direction_order 2 Dir.w) [2, 0, 2, 4] = ([4, 4, 0, 0], 4)
    ∧ ([4, 4, 0, 0] : List Nat) ≠ [4, 0, 0, 4] := by
  decide

/-- C2 (amended): Up on `[2,0,2,4]` gives grid `[4,4,0,0]` with score delta 4 — the
column-0 tiles merge and the 4 in column 1 slides up to row 0. -/
theorem c2_theorem :
    process_move 2 (direction_order 2 Dir.w) [2, 0, 2, 4] = ([4, 4, 0, 0], 4) := by
  decide

/-- C3: on the board `[2,4,4,2]` (size 2) no direction changes the grid, yet with the
stuck counter at 0 `AIPlayer.get_move` returns `w` while the uniform draw
`random.choice(['w','a','s','d'])` under the same random source would return `a`:
the result is not the random draw the claim describes. -/
theorem c3_counterexample :
    ai_get_move 2 [2, 4, 4, 2] 0 0 (fun l => l.getD 1 Dir.w) [] = Dir.w
    ∧ (fun (l : List Dir) => l.getD 1 Dir.w) [Dir.w, Dir.a, Dir.s, Dir.d] = Dir.a
    ∧ Dir.w ≠ Dir.a := by
  decide

/-- C3 (amended): for every board and score such that none of the four directions
changes the grid, and with the stuck counter at most 5, `AIPlayer.get_move`
deterministically returns `w` — the initialization value of `best_move` in
`_get_best_move` — independently of the random source. -/
theorem c3_theorem (size : Nat) (b : List Nat) (score stuck : Nat)
    (choose : List Dir → Dir) (rng : Rng)
    (hstuck : stuck ≤ 5)
    (hall : ∀ dir : Dir, (process_move size (direction_order size dir) b).1 = b) :
    ai_get_move size b score stuck choose rng = Dir.w := by
  have h15 : ¬ stuck > 15 := by omega
  have h5 : ¬ stuck > 5 := by omega
  rw [ai_get_move, if_neg h15, if_neg h5, get_best_move]
  simp only [List.foldl_cons, List.foldl_nil]
  rw [best_step_skip size score b _ Dir.w (hall Dir.w),
      best_step_skip size score b _ Dir.a (hall Dir.a),
      best_step_skip size score b _ Dir.s (hall Dir.s),
      best_step_skip size score b _ Dir.d (hall Dir.d)]

/-- C3 witness: the size-2 board `[2,4,4,2]` with score 7 and stuck counter 3 admits
no grid-changing direction, and `AIPlayer.get_move` returns `w` on it. -/
theorem c3_witness :
    (3 ≤ 5 ∧ ∀ dir : Dir, (process_move 2 (direction_order 2 dir) [2, 4, 4, 2]).1 = [2, 4, 4, 2])
    ∧ ai_get_move 2 [2, 4, 4, 2] 7 3 (fun l => l.getD 0 Dir.w) [(0, false)] = Dir.w :=
  ⟨⟨by decide, by decide⟩,
    c3_theorem 2 [2, 4, 4, 2] 7 3 (fun l => l.getD 0 Dir.w) [(0, false)]
      (by decide) (by decide)⟩

/-- C4: `Game2048.get_ai_move` never returns a direction: its first statement reads
`self.player_type`, an attribute no method of `Game2048` ever assigns (and the
global `PlayerType`, `self.stuck_counter` and `self.ai` are equally undefined), so
evaluation stops at an `AttributeError`. -/
theorem c4_theorem :
    get_ai_move = Except.error "AttributeError: player_type"
    ∧ "player_type" ∉ game2048_attributes
    ∧ "PlayerType" ∉ module_globals
    ∧ "stuck_counter" ∉ game2048_attributes
    ∧ "ai" ∉ game2048_attributes := by
  refine ⟨rfl, ?_, ?_, ?_, ?_⟩ <;> decide

/-- C5: the session score is not non-decreasing under `undo_move`: starting a game
with board `[2,2,0,0]`, moving Left (score 4) and then Right, `undo_move` succeeds
while in the `PLAYING` state and drops the score from 4 back to 0. -/
theorem c5_counterexample :
    (let st := start_game 2 5 false 0 [(0, false), (0, false), (1, false), (0, false)]
     let m1 := session_make_move 2 5 st.1 Dir.a st.2
     let m2 := session_make_move 2 5 m1.2.1 Dir.d m1.2.2
     let u := undo_move m2.2.1
     m2.2.1.state = GameSt.playing ∧ u.1 = true ∧ m2.2.1.score = 4 ∧ u.2.score = 0) := by
  decide

/-- C5 (amended): `Game2048.make_move` never decreases the session score, and any
increase is exactly the merge gain reported by the slide/merge step; `undo_move`,
however, may decrease the score, restoring the earlier stored value. -/
theorem c5_theorem (size max_history : Nat) (s : Session) (dir : Dir) (rng : Rng) :
    s.score ≤ (session_make_move size max_history s dir rng).2.1.score
    ∧ ((session_make_move size max_history s dir rng).2.1.score = s.score
       ∨ (session_make_move size max_history s dir rng).2.1.score
         = s.score + (process_move size (direction_order size dir) s.board).2) := by
  unfold session_make_move
  split
  · simp
  · simp only [make_move]
    split
    · simp
    · simp

/-- C6: with the stuck counter at most 5, if exactly one direction changes the grid
then `AIPlayer.get_move` returns that direction, whatever the heuristic value of
the resulting position: the lone legal direction beats the `-inf` initialization
and no other direction is ever considered. -/
theorem c6_theorem (size : Nat) (b : List Nat) (score stuck : Nat)
    (choose : List Dir → Dir) (rng : Rng) (d0 : Dir)
    (hstuck : stuck ≤ 5)
    (hleg : (process_move size (direction_order size d0) b).1 ≠ b)
    (hrest : ∀ dir : Dir, dir ≠ d0 → (process_move size (direction_order size dir) b).1 = b) :
    ai_get_move size b score stuck choose rng = d0 := by
  have h15 : ¬ stuck > 15 := by omega
  have h5 : ¬ stuck > 5 := by omega
  rw [ai_get_move, if_neg h15, if_neg h5, get_best_move]
  simp only [List.foldl_cons, List.foldl_nil]
  cases d0 with
  | w =>
    obtain ⟨v, rng2, hw⟩ := best_step_adopt size score b Dir.w rng Dir.w hleg
    rw [hw, best_step_skip size score b _ Dir.a (hrest Dir.a (by decide)),
        best_step_skip size score b _ Dir.s (hrest Dir.s (by decide)),
        best_step_skip size score b _ Dir.d (hrest Dir.d (by decide))]
  | a =>
    rw [best_step_skip size score b _ Dir.w (hrest Dir.w (by decide))]
    obtain ⟨v, rng2, ha⟩ := best_step_adopt size score b Dir.w rng Dir.a hleg
    rw [ha, best_step_skip size score b _ Dir.s (hrest Dir.s (by decide)),
        best_step_skip size score b _ Dir.d (hrest Dir.d (by decide))]
  | s =>
    rw [best_step_skip size score b _ Dir.w (hrest Dir.w (by decide)),
        best_step_skip size score b _ Dir.a (hrest Dir.a (by decide))]
    obtain ⟨v, rng2, hs⟩ := best_step_adopt size score b Dir.w rng Dir.s hleg
    rw [hs, best_step_skip size score b _ Dir.d (hrest Dir.d (by decide))]
  | d =>
    rw [best_step_skip size score b _ Dir.w (hrest Dir.w (by decide)),
        best_step_skip size score b _ Dir.a (hrest Dir.a (by decide)),
        best_step_skip size score b _ Dir.s (hrest Dir.s (by decide))]
    obtain ⟨v, rng2, hd⟩ := best_step_adopt size score b Dir.w rng Dir.d hleg
    rw [hd]

/-- C6 witness: on the size-2 board `[0,0,2,4]` only Up changes the grid, and
`AIPlayer.get_move` with stuck counter 2 returns Up. -/
theorem c6_witness :
    ((process_move 2 (direction_order 2 Dir.w) [0, 0, 2, 4]).1 ≠ [0, 0, 2, 4]
     ∧ ∀ dir : Dir, dir ≠ Dir.w → (process_move 2 (direction_order 2 dir) [0, 0, 2, 4]).1 = [0, 0, 2, 4])
    ∧ ai_get_move 2 [0, 0, 2, 4] 12 2 (fun l => l.getD 3 Dir.w) [(1, true)] = Dir.w :=
  ⟨⟨by decide, by decide⟩,
    c6_theorem 2 [0, 0, 2, 4] 12 2 (fun l => l.getD 3 Dir.w) [(1, true)] Dir.w
      (by decide) (by decide) (by decide)⟩

/-- Membership in `empty_indices` is exactly being an in-range index of an empty cell. -/
theorem mem_empty_indices {b : List Nat} {i : Nat} :
    i ∈ empty_indices b ↔ i < b.length ∧ b.getD i 0 = 0 := by
  simp [empty_indices, List.mem_filter, List.mem_range]

/-- A grid with no 0 cell has no empty indices. -/
theorem empty_indices_eq_nil {b : List Nat} (h : 0 ∉ b) : empty_indices b = [] := by
  rw [List.eq_nil_iff_forall_not_mem]
  intro i hi
  obtain ⟨hlt, hz⟩ := mem_empty_indices.1 hi
  rw [List.getD_eq_getElem?_getD, List.getElem?_eq_getElem hlt, Option.getD_some] at hz
  exact h (hz ▸ List.getElem_mem hlt)

/-- A grid containing a 0 cell has a nonempty list of empty indices. -/
theorem empty_indices_ne_nil {b : List Nat} (h : 0 ∈ b) : empty_indices b ≠ [] := by
  obtain ⟨i, hlt, hi⟩ := List.mem_iff_getElem.1 h
  intro hnil
  have : i ∈ empty_indices b := mem_empty_indices.2
    ⟨hlt, by rw [List.getD_eq_getElem?_getD, List.getElem?_eq_getElem hlt, hi]; rfl⟩
  simp [hnil] at this

/-- Overwriting an empty cell with a nonzero value lowers the zero count by one. -/
theorem count_zero_set {b : List Nat} {i v : Nat} (hlt : i < b.length)
    (hz : b.getD i 0 = 0) (hv : v ≠ 0) : (b.set i v).count 0 + 1 = b.count 0 := by
  rw [List.getD_eq_getElem?_getD, List.getElem?_eq_getElem hlt] at hz
  have hget : b[i] = 0 := hz
  have hpos : 0 < b.count 0 :=
    List.count_pos_iff.2 (by simpa [hget] using List.getElem_mem hlt)
  rw [List.count_set]
  · simp [hget, hv]
    omega
  · exact hlt

/-- C7: whenever the grid has an empty cell, `_add_random_tile` reports success and
sets exactly one previously-empty cell — the one selected from the empty-cell list
by the random pick, every empty cell being selectable — to 2 (`random.random() < 0.9`)
or 4 (otherwise), leaves all other cells unchanged, and lowers the empty-cell count
by exactly one; on a full grid it reports failure and changes nothing. -/
theorem c7_theorem (b : List Nat) (rng : Rng) :
    (0 ∈ b →
      (add_random_tile b rng).1 = true
      ∧ ∃ i, i ∈ empty_indices b
          ∧ i = (empty_indices b).getD ((rng.headD (0, false)).1 % (empty_indices b).length) 0
          ∧ i < b.length ∧ b.getD i 0 = 0
          ∧ (add_random_tile b rng).2.1 = b.set i (if (rng.headD (0, false)).2 then 4 else 2)
          ∧ (add_random_tile b rng).2.1.count 0 + 1 = b.count 0
          ∧ ∀ j, j ≠ i → (add_random_tile b rng).2.1.getD j 0 = b.getD j 0)
    ∧ (0 ∉ b → add_random_tile b rng = (false, b, rng))
    ∧ (∀ j ∈ empty_indices b,
        ∃ p : Nat, (empty_indices b).getD (p % (empty_indices b).length) 0 = j) := by
  refine ⟨?_, ?_, ?_⟩
  · intro h0
    have hne : empty_indices b ≠ [] := empty_indices_ne_nil h0
    have hlen : 0 < (empty_indices b).length := List.length_pos.2 hne
    have hklen : (rng.headD (0, false)).1 % (empty_indices b).length < (empty_indices b).length :=
      Nat.mod_lt _ hlen
    set i := (empty_indices b).getD ((rng.headD (0, false)).1 % (empty_indices b).length) 0
      with hidef
    have himem : i ∈ empty_indices b := by
      rw [hidef, List.getD_eq_getElem?_getD, List.getElem?_eq_getElem hklen]
      exact List.getElem_mem hklen
    obtain ⟨hilt, hiz⟩ := mem_empty_indices.1 himem
    have heq :
        add_random_tile b rng =
          (true, b.set i (if (rng.headD (0, false)).2 then 4 else 2), rng.tail) := by
      unfold add_random_tile
      rw [if_neg (by simp [List.isEmpty_iff, hne])]
    refine ⟨by rw [heq], i, himem, hidef, hilt, hiz, by rw [heq], ?_, ?_⟩
    · rw [heq]
      exact count_zero_set hilt hiz (by split <;> simp)
    · intro j hj
      rw [heq]
      simp only [List.getD_eq_getElem?_getD]
      rw [List.getElem?_set_ne (fun h => hj h.symm)]
  · intro h0
    unfold add_random_tile
    rw [if_pos (by simp [List.isEmpty_iff, empty_indices_eq_nil h0])]
  · intro j hj
    obtain ⟨k, hk, hg⟩ := List.mem_iff_getElem.1 hj
    refine ⟨k, ?_⟩
    rw [Nat.mod_eq_of_lt hk, List.getD_eq_getElem?_getD, List.getElem?_eq_getElem hk, hg]
    rfl

/-- C7 witness: on `[2,0,0,4]` with pick 5 and the probability-0.1 outcome, the spawn
succeeds and fills one empty cell with a 4; on the full grid `[2,4]` it fails and
changes nothing. -/
theorem c7_witness :
    ((add_random_tile [2, 0, 0, 4] [(5, true)]).1 = true
      ∧ (add_random_tile [2, 0, 0, 4] [(5, true)]).2.1.count 0 + 1
        = ([2, 0, 0, 4] : List Nat).count 0)
    ∧ add_random_tile [2, 4] [] = (false, [2, 4], []) :=
  ⟨⟨((c7_theorem [2, 0, 0, 4] [(5, true)]).1 (by decide)).1, by
      obtain ⟨-, i, -, -, -, -, -, hcount, -⟩ := (c7_theorem [2, 0, 0, 4] [(5, true)]).1 (by decide)
      exact hcount⟩,
   (c7_theorem [2, 4] []).2.1 (by decide)⟩

/-- C8: `GameHistory.undo` fails (the `InsufficientHistory` / `ValueError` case,
modelled as `none`) exactly when fewer than 2 entries are stored, leaving the stored
history unchanged; otherwise it removes the two newest entries and returns the
second-removed (older) one together with the remaining entries; and
`Game2048.undo_move` surfaces a failed undo as `False` with the session untouched,
never as an exception. -/
theorem c8_theorem (hist : List HistEntry) (s : Session) :
    (can_undo hist = false ↔ hist.length < 2)
    ∧ (hist.length < 2 → undo hist = none)
    ∧ (2 ≤ hist.length →
        undo hist = some ((hist.getD (hist.length - 2) ([], 0), hist.take (hist.length - 2))))
    ∧ (can_undo s.hist = false → undo_move s = (false, s)) := by
  refine ⟨?_, ?_, ?_, ?_⟩
  · simp only [can_undo, decide_eq_false_iff_not, Nat.not_lt, gt_iff_lt]
    omega
  · intro h
    rw [undo, if_neg (by simp [can_undo]; omega)]
  · intro h2
    rw [undo, if_pos (by simp [can_undo]; omega)]
    have htake : hist.dropLast = hist.take (hist.length - 1) := List.dropLast_eq_take hist
    have hlen1 : (hist.take (hist.length - 1)).length = hist.length - 1 := by
      rw [List.length_take]
      omega
    have hlast :
        (hist.take (hist.length - 1)).getLast? = some (hist.getD (hist.length - 2) ([], 0)) := by
      rw [List.getLast?_eq_getElem?, hlen1, List.getElem?_take, if_pos (by omega),
        List.getD_eq_getElem?_getD, List.getElem?_eq_getElem (by omega),
        List.getElem?_eq_getElem (by omega)]
      rfl
    have hdrop2 :
        (hist.take (hist.length - 1)).dropLast = hist.take (hist.length - 2) := by
      rw [List.dropLast_eq_take, hlen1, List.take_take]
      congr 1
      omega
    dsimp only
    rw [htake, hlast, hdrop2]
    rfl
  · intro h
    rw [undo_move, if_pos (Or.inl (by simp [h]))]

/-- C8 witness: with two stored entries `undo` returns the older one and empties the
store; with one entry the session-level `undo_move` returns `False` unchanged. -/
theorem c8_witness :
    (can_undo [([2, 2, 0, 0], 0)] = false ↔ ([([2, 2, 0, 0], 0)] : List HistEntry).length < 2)
    ∧ undo [([2, 2, 0, 0], 0), ([4, 0, 2, 0], 4)] = some ((([2, 2, 0, 0], 0) : HistEntry), [])
    ∧ undo_move
        { board := [4, 0, 2, 0], score := 4, best := 4, hist := [([2, 2, 0, 0], 0)],
          state := GameSt.playing, is_human := true, stuck := 0 }
      = (false,
         { board := [4, 0, 2, 0], score := 4, best := 4, hist := [([2, 2, 0, 0], 0)],
           state := GameSt.playing, is_human := true, stuck := 0 }) :=
  ⟨(c8_theorem [([2, 2, 0, 0], 0)]
      { board := [], score := 0, best := 0, hist := [], state := GameSt.playing,
        is_human := true, stuck := 0 }).1,
   (c8_theorem [([2, 2, 0, 0], 0), ([4, 0, 2, 0], 4)]
      { board := [], score := 0, best := 0, hist := [], state := GameSt.playing,
        is_human := true, stuck := 0 }).2.2.1 (by decide),
   (c8_theorem []
      { board := [4, 0, 2, 0], score := 4, best := 4, hist := [([2, 2, 0, 0], 0)],
        state := GameSt.playing, is_human := true, stuck := 0 }).2.2.2 (by decide)⟩

/-- One `add_state` push keeps the stored count within `max_history + 1`. -/
theorem add_state_length_le (max_history : Nat) (hist : List HistEntry) (b : List Nat)
    (score : Nat) (h : hist.length ≤ max_history + 1) :
    (add_state max_history hist b score).length ≤ max_history + 1 := by
  unfold add_state
  split
  · dsimp only
    split
    · rename_i hgt
      simp only [List.length_tail, List.length_append, List.length_cons,
        List.length_nil] at hgt ⊢
      omega
    · rename_i hle
      rw [List.length_append] at hle ⊢
      omega
  · exact h

/-- C9: after every sequence of `add_state` pushes starting from the empty history,
at most `max_history + 1` entries are stored; a push whose grid equals the most
recently stored grid leaves the history entirely unchanged regardless of the score
pushed with it; and a stored entry is the value of the pushed grid at push time (the
`board.copy()` snapshot), the newest entry after a non-duplicate push being exactly
the pushed `(grid, score)` pair. -/
theorem c9_theorem (max_history : Nat) (pushes : List HistEntry) (hist : List HistEntry)
    (b : List Nat) (sc sc2 : Nat) :
    (pushes.foldl (fun h p => add_state max_history h p.1 p.2) []).length ≤ max_history + 1
    ∧ (hist.getLast?.map Prod.fst = some b → add_state max_history hist b sc = hist)
    ∧ (hist.getLast?.map Prod.fst ≠ some b →
        (add_state max_history hist b sc2).getLast? = some (b, sc2)) := by
  refine ⟨?_, ?_, ?_⟩
  · have key : ∀ (ps : List HistEntry) (h0 : List HistEntry), h0.length ≤ max_history + 1 →
        (ps.foldl (fun h p => add_state max_history h p.1 p.2) h0).length ≤ max_history + 1 := by
      intro ps
      induction ps with
      | nil => intro h0 h; exact h
      | cons p t ih =>
        intro h0 h
        exact ih _ (add_state_length_le max_history h0 p.1 p.2 h)
    exact key pushes [] (by simp)
  · intro h
    have hne : ¬ hist.isEmpty := by
      intro he
      rw [List.isEmpty_iff.1 he] at h
      simp at h
    rw [add_state, if_neg]
    simp [hne, h]
  · intro h
    rw [add_state, if_pos (Or.inr h)]
    dsimp only
    split
    · rename_i hgt
      match hist with
      | [] => simp at hgt
      | e :: t => simp [List.getLast?_concat]
    · exact List.getLast?_concat hist

/-- C9 witness: with `max_history = 1`, three distinct pushes keep at most 2 entries;
pushing the stored grid again with a different score changes nothing; pushing a new
grid stores exactly that `(grid, score)` pair. -/
theorem c9_witness :
    (([([2, 2, 0, 0], 0), ([4, 0, 2, 0], 4), ([2, 4, 0, 2], 4)] : List HistEntry).foldl
        (fun h p => add_state 1 h p.1 p.2) []).length ≤ 1 + 1
    ∧ add_state 1 [([2, 2, 0, 0], 0)] [2, 2, 0, 0] 7 = [([2, 2, 0, 0], 0)]
    ∧ (add_state 1 [([2, 2, 0, 0], 0)] [4, 0, 2, 0] 4).getLast? = some ([4, 0, 2, 0], 4) :=
  ⟨(c9_theorem 1 [([2, 2, 0, 0], 0), ([4, 0, 2, 0], 4), ([2, 4, 0, 2], 4)] [] [] 0 0).1,
   (c9_theorem 1 [] [([2, 2, 0, 0], 0)] [2, 2, 0, 0] 7 0).2.1 (by decide),
   (c9_theorem 1 [] [([2, 2, 0, 0], 0)] [4, 0, 2, 0] 0 4).2.2 (by decide)⟩

/-- The positional-bias loop computes the `Finset.range` sum of its weights. -/
theorem sum_map_range (f : Nat → Nat) (n : Nat) :
    ((List.range n).map f).sum = ∑ i ∈ Finset.range n, f i := by
  induction n with
  | zero => simp
  | succ n ih =>
    rw [List.range_succ, List.map_append, List.sum_append, Finset.sum_range_succ, ih]
    simp

/-- Deduplication does not change the value set of a list. -/
theorem dedup_toFinset (l : List Nat) : l.dedup.toFinset = l.toFinset := by
  ext x
  simp

/-- The variety loop over the first-occurrence dict equals the sum, over the distinct
nonzero values of the grid, of `(max_value // value) * count`. -/
theorem variety_score_eq (b : List Nat) (m : Nat) :
    variety_score b m = ∑ v ∈ b.toFinset.erase 0, m / v * b.count v := by
  unfold variety_score
  calc ((b.dedup.map fun v => if v ≠ 0 then m / v * b.count v else 0)).sum
      = ∑ v ∈ b.toFinset, (if v ≠ 0 then m / v * b.count v else 0) := by
        rw [← dedup_toFinset, List.sum_toFinset _ (List.nodup_dedup b)]
    _ = ∑ v ∈ b.toFinset.erase 0, (if v ≠ 0 then m / v * b.count v else 0) :=
        (Finset.sum_erase _ (by simp)).symm
    _ = ∑ v ∈ b.toFinset.erase 0, m / v * b.count v :=
        Finset.sum_congr rfl (fun v hv => if_pos (Finset.mem_erase.1 hv).1)

/-- C10: `_evaluate_position` returns `-(score^4)` exactly on terminal boards, and
otherwise exactly
`empty^2 * max * 1024 + 4 * Σ_i (row(i)+col(i))^3 * grid[i] + max * score +
Σ_{v ≠ 0} (max / v) * count(v)` with integer division in the variety term. -/
theorem c10_theorem (size : Nat) (b : List Nat) (score : Nat) :
    evaluate_position size b score =
      if is_game_over size b then -((score : Int) ^ 4)
      else
        ((b.count 0) ^ 2 * get_max_value b * 1024
          + 4 * ∑ i ∈ Finset.range (size * size), (i / size + i % size) ^ 3 * b.getD i 0
          + get_max_value b * score
          + ∑ v ∈ b.toFinset.erase 0, get_max_value b / v * b.count v : Nat) := by
  unfold evaluate_position
  split
  · rw [neg_one_mul]
  · rw [Nat.cast_inj]
    have hbias : bottom_right_bias size b
        = ∑ i ∈ Finset.range (size * size), (i / size + i % size) ^ 3 * b.getD i 0 := by
      rw [bottom_right_bias, sum_map_range]
      exact Finset.sum_congr rfl (fun i _ => by rw [Nat.add_comm (i % size) (i / size)])
    rw [get_empty_cell_count, hbias, variety_score_eq]
    ring

end TwentyFortyEight
